import Mathlib

/-!
Verification of the `coral` compiler's type-inference core against its
specification.  The definitions below are a shallow embedding of
`src/coral/ast.py` (type lattice, scopes, typed AST, inference fixed point)
and of the tagged-pointer boxing of `src/coral/compiler.py`.
-/

set_option maxRecDepth 8192

namespace Coral

/-- The `NativeType` enum from `coral/ast.py`: the kind tags of the type lattice. -/
inductive NativeType where
  | ANY
  | UNDEFINED
  | BOOLEAN
  | INTEGER
  | STRING
  | TUPLE
  | FUNCTION
  | UNION
deriving DecidableEq, Repr

/-- The bound types of `coral/ast.py`.  The three concrete classes implementing
the `IBoundType` interface are merged into one inductive:

* `BoundType` instances are `any`, `undefined`, `boolean`, `integer`, `string`
  (zero generics) and `tuple` (exactly two generics) — the source never
  constructs a `BoundType` with any other arity;
* `BoundTypeUnion` is `tunion`; its member dict (Python `Dict[NativeType,
  IBoundType]`, insertion ordered) is modelled as an association list;
* `BoundFunctionType` is `func` with its `params` sequence and `return_type`. -/
inductive IBoundType where
  | any
  | undefined
  | boolean
  | integer
  | string
  | tuple (first second : IBoundType)
  | func (params : List IBoundType) (return_type : IBoundType)
  | tunion (members : List (NativeType × IBoundType))
deriving Repr

/-- The `type` property of `IBoundType`: the `NativeType` kind tag. -/
def IBoundType.type : IBoundType → NativeType
  | .any => .ANY
  | .undefined => .UNDEFINED
  | .boolean => .BOOLEAN
  | .integer => .INTEGER
  | .string => .STRING
  | .tuple _ _ => .TUPLE
  | .func _ _ => .FUNCTION
  | .tunion _ => .UNION

/-- The `generics` property: a `BoundType` exposes its generics sequence (empty
for the scalar kinds, the two operands for `tuple`), `BoundFunctionType`
exposes `(return_type,)` and `BoundTypeUnion` exposes `()`. -/
def IBoundType.generics : IBoundType → List IBoundType
  | .tuple a b => [a, b]
  | .func _ r => [r]
  | _ => []

mutual

/-- Size of a bound type (counting list spines), used only to supply enough
fuel to the fuelled recursions below. -/
def IBoundType.size : IBoundType → Nat
  | .any | .undefined | .boolean | .integer | .string => 1
  | .tuple a b => a.size + b.size + 1
  | .func ps r => r.size + sizeList ps + 1
  | .tunion m => sizeMembers m + 1

/-- Combined size of a params list (see `IBoundType.size`). -/
def sizeList : List IBoundType → Nat
  | [] => 1
  | t :: ts => t.size + sizeList ts + 1

/-- Combined size of a member list (see `IBoundType.size`). -/
def sizeMembers : List (NativeType × IBoundType) → Nat
  | [] => 1
  | (_, v) :: rest => v.size + sizeMembers rest + 1

end

/-- Python `members.get(k, None)` on the insertion-ordered member dict of a
`BoundTypeUnion`. -/
def dictGet (d : List (NativeType × IBoundType)) (k : NativeType) : Option IBoundType :=
  match d with
  | [] => none
  | (k', v) :: rest => if k' = k then some v else dictGet rest k

/-- Python `d[k] = v` on a dict: replace the value in place when the key is
already present, otherwise append a new entry. -/
def dictInsert : List (NativeType × IBoundType) → NativeType → IBoundType →
    List (NativeType × IBoundType)
  | [], k, v => [(k, v)]
  | (k', v') :: rest, k, v =>
    if k' = k then (k, v) :: rest else (k', v') :: dictInsert rest k v

/-- The dict comprehension `{member.type: member for member in vs}` keyed by
each member's kind (later duplicates overwrite in place). -/
def dictOfValues (vs : List IBoundType) : List (NativeType × IBoundType) :=
  vs.foldl (fun d v => dictInsert d v.type v) []

/-- The method `IBoundType.union` of `coral/ast.py`, merging the `union` methods of
`BoundType`, `BoundTypeUnion` and `BoundFunctionType`.  The source's dynamic
dispatch (`return other.union(self)` when `other` is a union or a function
type) is inlined at the corresponding pattern rows.  The recursion of the
source is well founded; `fuel` bounds its depth so that the definition is
structural and executable, and the wrapper `IBoundType.union` below always
supplies enough fuel (every recursive call strictly shrinks the combined term
size), so the `fuel = 0` fallback is never reached from it. -/
def unionGo : Nat → IBoundType → IBoundType → IBoundType
  | 0, _, _ => .undefined
  | fuel + 1, a, b =>
    match a, b with
    -- BoundType.union: `self` ANY or UNDEFINED absorbs
    | .any, _ => .any
    | .undefined, _ => .undefined
    -- all three classes: `other` ANY or UNDEFINED absorbs
    | _, .any => .any
    | _, .undefined => .undefined
    -- BoundTypeUnion.union with a union: merge member-wise over self's keys
    -- (keys present only in `other` are dropped by the source's loop)
    | .tunion m1, .tunion m2 =>
      .tunion (dictOfValues (m1.map (fun e =>
        match dictGet m2 e.2.type with
        | none => e.2
        | some w => unionGo fuel e.2 w)))
    -- BoundTypeUnion.union with a non-union
    | .tunion m1, b =>
      match dictGet m1 b.type with
      | none => .tunion m1 -- "the union result is ourself"
      | some mem => .tunion (dictInsert m1 mem.type (unionGo fuel mem b))
    -- BoundFunctionType.union with a function type: the source compares
    -- `len(self._params) != other.params` — an int against the params tuple
    -- itself, which is never equal — so this row always returns UNDEFINED and
    -- the pointwise merge written below it in the source is dead code.
    | .func _ _, .func _ _ => .undefined
    -- function type with a union: dispatched to BoundTypeUnion.union(self)
    | .func ps r, .tunion m2 =>
      match dictGet m2 NativeType.FUNCTION with
      | none => .tunion m2
      | some mem => .tunion (dictInsert m2 mem.type (unionGo fuel mem (.func ps r)))
    -- BoundFunctionType.union with a concrete non-function kind
    | .func ps r, b => .tunion [(NativeType.FUNCTION, .func ps r), (b.type, b)]
    -- BoundType.union with a union: dispatched to BoundTypeUnion.union(self)
    | a, .tunion m2 =>
      match dictGet m2 a.type with
      | none => .tunion m2
      | some mem => .tunion (dictInsert m2 mem.type (unionGo fuel mem a))
    -- BoundType.union with a function type: dispatched to
    -- BoundFunctionType.union(self)
    | a, .func qs s => .tunion [(NativeType.FUNCTION, .func qs s), (a.type, a)]
    -- BoundType.union, same kind: pointwise union of the generics
    | .tuple a1 a2, .tuple b1 b2 => .tuple (unionGo fuel a1 b1) (unionGo fuel a2 b2)
    -- BoundType.union: same scalar kind returns self, distinct kinds build a
    -- two-member union
    | a, b => if a.type = b.type then a else .tunion [(a.type, a), (b.type, b)]

/-- The wrapper `IBoundType.union` (see `unionGo`). -/
def IBoundType.union (a b : IBoundType) : IBoundType :=
  unionGo (a.size + b.size + 1) a b

/-- The method `IBoundType.lower` of `coral/ast.py` (the `lower` methods of the three
classes, with the dispatch to `other.lower(self)` for unions inlined), fuelled
like `unionGo`. -/
def lowerGo : Nat → IBoundType → IBoundType → IBoundType
  | 0, _, _ => .undefined
  | fuel + 1, a, b =>
    match a, b with
    -- `self` UNDEFINED absorbs (checked first in every class)
    | .undefined, _ => .undefined
    -- `other` UNDEFINED absorbs
    | _, .undefined => .undefined
    -- BoundType.lower: `self` ANY yields `other`
    | .any, b => b
    -- all classes: `other` ANY yields `self`
    | a, .any => a
    -- BoundTypeUnion.lower with a union: member-wise intersection; an empty
    -- intersection collapses to UNDEFINED
    | .tunion m1, .tunion m2 =>
      let inter := m1.filterMap (fun e =>
        (dictGet m2 e.2.type).map (fun w => lowerGo fuel e.2 w))
      if inter.isEmpty then .undefined else .tunion (dictOfValues inter)
    -- BoundTypeUnion.lower with a non-union: the member of that kind, lowered
    | .tunion m1, b =>
      match dictGet m1 b.type with
      | none => .undefined
      | some mem => lowerGo fuel mem b
    -- a non-union with a union: dispatched to BoundTypeUnion.lower(self)
    | a, .tunion m2 =>
      match dictGet m2 a.type with
      | none => .undefined
      | some mem => lowerGo fuel mem a
    -- BoundFunctionType.lower with a function type: pointwise on params and
    -- return type, UNDEFINED on arity mismatch
    | .func ps r, .func qs s =>
      if ps.length = qs.length then
        .func ((ps.zip qs).map (fun p => lowerGo fuel p.1 p.2)) (lowerGo fuel r s)
      else .undefined
    -- BoundType.lower, same kind: pointwise on the generics
    | .tuple a1 a2, .tuple b1 b2 => .tuple (lowerGo fuel a1 b1) (lowerGo fuel a2 b2)
    -- BoundType.lower / BoundFunctionType.lower: same scalar kind returns
    -- self, distinct kinds yield UNDEFINED
    | a, b => if a.type = b.type then a else .undefined

/-- The wrapper `IBoundType.lower` (see `lowerGo`). -/
def IBoundType.lower (a b : IBoundType) : IBoundType :=
  lowerGo (a.size + b.size + 1) a b

/-- Python `==` on bound types: `BoundType.__eq__` compares the kind and the
generics pointwise, `BoundFunctionType.__eq__` compares return type and params
pointwise, and `BoundTypeUnion.__eq__` compares the member dicts as Python
dicts (same key set and equal values, insertion order ignored).  Cross-class
comparisons are `False`.  Fuelled like `unionGo`. -/
def pyEqGo : Nat → IBoundType → IBoundType → Bool
  | 0, _, _ => false
  | fuel + 1, a, b =>
    match a, b with
    | .any, .any => true
    | .undefined, .undefined => true
    | .boolean, .boolean => true
    | .integer, .integer => true
    | .string, .string => true
    | .tuple a1 a2, .tuple b1 b2 => pyEqGo fuel a1 b1 && pyEqGo fuel a2 b2
    | .func ps r, .func qs s =>
      pyEqGo fuel r s && ps.length == qs.length &&
        (ps.zip qs).all (fun p => pyEqGo fuel p.1 p.2)
    | .tunion m1, .tunion m2 =>
      m1.all (fun e =>
        match dictGet m2 e.1 with
        | some w => pyEqGo fuel e.2 w
        | none => false) &&
      m2.all (fun e => (dictGet m1 e.1).isSome)
    | _, _ => false

/-- Python `==` on bound types (see `pyEqGo`). -/
def pyEq (a b : IBoundType) : Bool :=
  pyEqGo (a.size + b.size + 1) a b

/-- The method `IBoundType.lowers_any` with the `BoundFunctionType` override: the default
implementation checks that the kind of `lower(self, other)` is not ANY; the
function-type override additionally checks the kinds of the lowered parameter
and return types (one level deep only). -/
def IBoundType.lowers_any (a b : IBoundType) : Bool :=
  match a with
  | .func _ _ =>
    match a.lower b with
    | .undefined => true
    | .func qs s => s.type != .ANY && qs.all (fun q => q.type != .ANY)
    | l => l.type != .ANY
      -- unreachable: lowering a function type yields UNDEFINED or a function
      -- type; on any other result the source's cast would fail
  | _ => (a.lower b).type != .ANY

/-- Spec-side predicate (claim C3): does the type contain an `Any` operand at
any nesting depth (the type itself included)? -/
def hasAnyGo : Nat → IBoundType → Bool
  | 0, _ => false
  | fuel + 1, t =>
    match t with
    | .any => true
    | .tuple a b => hasAnyGo fuel a || hasAnyGo fuel b
    | .func ps r => hasAnyGo fuel r || ps.any (hasAnyGo fuel)
    | .tunion m => m.any (fun e => hasAnyGo fuel e.2)
    | _ => false

/-- Spec-side predicate (claim C3), with enough fuel for the whole term. -/
def hasAnyOperand (t : IBoundType) : Bool :=
  hasAnyGo (t.size + 1) t

/-- The interned flyweight constants of `coral/ast.py`. -/
def BOUND_ANY_TYPE : IBoundType := .any

/-- Interned `BoundType(NativeType.UNDEFINED, ())`. -/
def BOUND_UNDEFINED_TYPE : IBoundType := .undefined

/-- Interned `BoundType(NativeType.BOOLEAN, ())`. -/
def BOUND_BOOLEAN_TYPE : IBoundType := .boolean

/-- Interned `BoundType(NativeType.INTEGER, ())`. -/
def BOUND_INTEGER_TYPE : IBoundType := .integer

/-- Interned `BoundType(NativeType.STRING, ())`. -/
def BOUND_STRING_TYPE : IBoundType := .string

/-- Interned `BoundType(NativeType.TUPLE, (ANY, ANY))`. -/
def BOUND_TUPLE_TYPE : IBoundType := .tuple .any .any

/-- The constant `BINOP_ADD_TYPES = BoundTypeUnion.for_members(INTEGER, STRING)`. -/
def BINOP_ADD_TYPES : IBoundType :=
  .tunion [(.INTEGER, .integer), (.STRING, .string)]

/-- The constant `BINOP_EQUAL_TYPES = BoundTypeUnion.for_members(BOOLEAN, INTEGER, STRING)`. -/
def BINOP_EQUAL_TYPES : IBoundType :=
  .tunion [(.BOOLEAN, .boolean), (.INTEGER, .integer), (.STRING, .string)]

end Coral

/-! ### Claims C1–C4: the lattice laws -/

namespace Coral

/-- Auxiliary for C3: when `hasAnyGo` (with positive fuel) reports no `Any`
operand, the kind of the type is not `ANY`. -/
theorem hasAnyGo_false_type_ne {n : Nat} {t : IBoundType}
    (hn : 0 < n) (h : hasAnyGo n t = false) : t.type ≠ .ANY := by
  cases n with
  | zero => omega
  | succ m => cases t <;> simp_all [hasAnyGo, IBoundType.type]

/-- Auxiliary for C3: the fact `hasAnyOperand t = false` implies the kind of `t` is not
`ANY`. -/
theorem hasAnyOperand_false_type_ne {t : IBoundType}
    (h : hasAnyOperand t = false) : t.type ≠ .ANY := by
  cases t <;> simp_all [hasAnyOperand, hasAnyGo, IBoundType.type]

end Coral

/-- C1 (counterexample): both absorption laws of the specification fail on the
code.  `union(Integer, Undefined) = Undefined` (union with `Undefined` is
absorbing, as the source docstring states), so
`lower(Integer, union(Integer, Undefined)) = Undefined ≠ Integer`; and
`lower(Integer, String) = Undefined`, so
`union(Integer, lower(Integer, String)) = Undefined ≠ Integer`.  Equality is
Python `==` (`pyEq`). -/
theorem c1_absorption_counterexample :
    Coral.pyEq (Coral.IBoundType.lower .integer
      (Coral.IBoundType.union .integer .undefined)) .integer = false ∧
    Coral.pyEq (Coral.IBoundType.union .integer
      (Coral.IBoundType.lower .integer .string)) .integer = false :=
  ⟨rfl, rfl⟩

/-- C1 (amended): for `A` and `B` among the interned base types (`Any`,
`Undefined`, `Boolean`, `Integer`, `String`, `Tuple<Any, Any>`),
`lower(A, union(A, B)) = A` holds whenever `B` is not `Undefined`, and
`union(A, lower(A, B)) = A` holds whenever `lower(A, B)` is not `Undefined`;
unrestricted, both laws fail because union with `Undefined` is absorbing
(and because two `Function` types union to `Undefined`, and a `Union` operand
lacking the other operand's kind absorbs it). -/
theorem c1_absorption_laws_interned (A B : Coral.IBoundType)
    (hA : A = .any ∨ A = .undefined ∨ A = .boolean ∨ A = .integer ∨
      A = .string ∨ A = .tuple .any .any)
    (hB : B = .any ∨ B = .undefined ∨ B = .boolean ∨ B = .integer ∨
      B = .string ∨ B = .tuple .any .any) :
    (B.type ≠ .UNDEFINED → Coral.pyEq (A.lower (A.union B)) A = true) ∧
    ((A.lower B).type ≠ .UNDEFINED → Coral.pyEq (A.union (A.lower B)) A = true) := by
  rcases hA with rfl | rfl | rfl | rfl | rfl | rfl <;>
    rcases hB with rfl | rfl | rfl | rfl | rfl | rfl <;>
    refine ⟨fun h => ?_, fun h => ?_⟩ <;>
    first
      | rfl
      | exact absurd rfl h

/-- C1 (witness for the amended theorem, at `A = B = Integer`). -/
theorem c1_absorption_laws_interned_witness :
    Coral.pyEq (Coral.IBoundType.lower .integer
      (Coral.IBoundType.union .integer .integer)) .integer = true ∧
    Coral.pyEq (Coral.IBoundType.union .integer
      (Coral.IBoundType.lower .integer .integer)) .integer = true :=
  ⟨(c1_absorption_laws_interned .integer .integer
      (Or.inr (Or.inr (Or.inr (Or.inl rfl))))
      (Or.inr (Or.inr (Or.inr (Or.inl rfl))))).1 (by decide),
   (c1_absorption_laws_interned .integer .integer
      (Or.inr (Or.inr (Or.inr (Or.inl rfl))))
      (Or.inr (Or.inr (Or.inr (Or.inl rfl))))).2 (by decide)⟩

/-- C2 (failing evaluation): the union of two `Function` types of equal arity
is `Undefined` instead of the pointwise union the claim states.
`BoundFunctionType.union` compares `len(self._params) != other.params` — the
arity (an int) against the params tuple itself — which is always true, so the
pointwise merge below it never runs. -/
theorem c2_function_union_bug :
    Coral.IBoundType.union (.func [.integer] .integer) (.func [.integer] .integer) =
      .undefined :=
  rfl

/-- C3 (counterexample): for `A = B = Tuple<Any, Any>`,
`lowers_any(A, B) = true` although `lower(A, B) = Tuple<Any, Any>` contains
`Any` operands, so the claimed "iff ... at any nesting depth" fails:
`lowers_any` only inspects the top level. -/
theorem c3_lowers_any_counterexample :
    Coral.IBoundType.lowers_any (.tuple .any .any) (.tuple .any .any) = true ∧
    Coral.hasAnyOperand
      (Coral.IBoundType.lower (.tuple .any .any) (.tuple .any .any)) = true :=
  ⟨rfl, rfl⟩

/-- C3 (amended): only the forward direction holds — when `lower(A, B)` has no
`Any` operand at any depth, `lowers_any(A, B)` is true.  The converse fails
(see the counterexample): `lowers_any` checks only the top-level kind, plus,
for a `Function` receiver, the immediate kinds of the lowered parameter and
return types. -/
theorem c3_lowers_any_of_no_any (a b : Coral.IBoundType)
    (h : Coral.hasAnyOperand (a.lower b) = false) :
    a.lowers_any b = true := by
  unfold Coral.IBoundType.lowers_any
  cases a with
  | func ps r =>
    revert h
    generalize (Coral.IBoundType.func ps r).lower b = l
    intro h
    cases l with
    | undefined => rfl
    | func qs s =>
      have hs : Coral.hasAnyGo ((Coral.IBoundType.func qs s).size) s = false ∧
          qs.any (Coral.hasAnyGo ((Coral.IBoundType.func qs s).size)) = false := by
        simpa [Coral.hasAnyOperand, Coral.hasAnyGo] using h
      have hpos : 0 < (Coral.IBoundType.func qs s).size := by
        have hsz : (Coral.IBoundType.func qs s).size = s.size + Coral.sizeList qs + 1 := rfl
        omega
      have h1 : s.type ≠ .ANY := Coral.hasAnyGo_false_type_ne hpos hs.1
      have h2 : ∀ q ∈ qs, q.type ≠ .ANY := by
        intro q hq
        exact Coral.hasAnyGo_false_type_ne hpos
          (by simpa using (List.any_eq_false.mp hs.2) q hq)
      simp only [Bool.and_eq_true, List.all_eq_true]
      refine ⟨?_, fun q hq => ?_⟩
      · simpa [bne_iff_ne] using h1
      · simpa [bne_iff_ne] using h2 q hq
    | any => simp [Coral.hasAnyOperand, Coral.hasAnyGo] at h
    | boolean => rfl
    | integer => rfl
    | string => rfl
    | tuple x y => simpa [bne_iff_ne] using Coral.hasAnyOperand_false_type_ne h
    | tunion m => simpa [bne_iff_ne] using Coral.hasAnyOperand_false_type_ne h
  | any => simpa [bne_iff_ne] using Coral.hasAnyOperand_false_type_ne h
  | undefined => simpa [bne_iff_ne] using Coral.hasAnyOperand_false_type_ne h
  | boolean => simpa [bne_iff_ne] using Coral.hasAnyOperand_false_type_ne h
  | integer => simpa [bne_iff_ne] using Coral.hasAnyOperand_false_type_ne h
  | string => simpa [bne_iff_ne] using Coral.hasAnyOperand_false_type_ne h
  | tuple x y => simpa [bne_iff_ne] using Coral.hasAnyOperand_false_type_ne h
  | tunion m => simpa [bne_iff_ne] using Coral.hasAnyOperand_false_type_ne h

/-- C3 (witness for the amended theorem, at `A = Integer`, `B = String`). -/
theorem c3_lowers_any_of_no_any_witness :
    Coral.hasAnyOperand (Coral.IBoundType.lower .integer .string) = false ∧
    Coral.IBoundType.lowers_any .integer .string = true :=
  ⟨rfl, c3_lowers_any_of_no_any .integer .string rfl⟩

/-- C4 (counterexample): the union of a `Function` type with a non-`Function`
concrete type is a `Union` that does contain a `FUNCTION` member —
`BoundFunctionType.union` builds `{FUNCTION: self, other.type: other}` —
contradicting the claimed "no ... Function member". -/
theorem c4_union_function_member_counterexample :
    Coral.IBoundType.union .integer (.func [] .integer) =
      .tunion [(.FUNCTION, .func [] .integer), (.INTEGER, .integer)] ∧
    Coral.dictGet [(.FUNCTION, .func [] .integer), (.INTEGER, .integer)] .FUNCTION =
      some (.func [] .integer) :=
  ⟨rfl, rfl⟩

/-- C4 (amended): for non-`Union` operands, when `union(a, b)` is a `Union` it
has exactly two members, keyed by the kinds of `a` and `b` and mapping each
kind to the corresponding operand; the operand kinds are then distinct and
neither `Any`, `Undefined` nor `Union` — but a `Function` member does occur
whenever one operand is a `Function` type and the other a different concrete
kind.  `lower` of non-`Union` operands never returns a `Union`. -/
theorem c4_union_members_shape (a b : Coral.IBoundType)
    (ha : a.type ≠ .UNION) (hb : b.type ≠ .UNION) :
    (∀ m, a.union b = .tunion m →
      a.type ≠ b.type ∧
      a.type ≠ .ANY ∧ a.type ≠ .UNDEFINED ∧ b.type ≠ .ANY ∧ b.type ≠ .UNDEFINED ∧
      m.length = 2 ∧ Coral.dictGet m a.type = some a ∧ Coral.dictGet m b.type = some b) ∧
    (a.lower b).type ≠ .UNION := by
  constructor
  · intro m hm
    cases a <;> cases b <;>
      simp_all [Coral.IBoundType.union, Coral.unionGo, Coral.IBoundType.type] <;>
      (subst hm; simp [Coral.dictGet])
  · cases a <;> cases b <;>
      first
        | (simp_all [Coral.IBoundType.lower, Coral.lowerGo, Coral.IBoundType.type]; done)
        | (simp only [Coral.IBoundType.lower, Coral.lowerGo]
           split <;> simp [Coral.IBoundType.type])

/-- C4 (witness for the amended theorem, at `a = Function(() -> Integer)`,
`b = Boolean`). -/
theorem c4_union_members_shape_witness :
    (Coral.IBoundType.func [] .integer).type ≠ (Coral.IBoundType.boolean).type ∧
    (Coral.IBoundType.func [] .integer).type ≠ .ANY ∧
    (Coral.IBoundType.func [] .integer).type ≠ .UNDEFINED ∧
    (Coral.IBoundType.boolean).type ≠ .ANY ∧
    (Coral.IBoundType.boolean).type ≠ .UNDEFINED ∧
    ([((.FUNCTION : Coral.NativeType), Coral.IBoundType.func [] .integer),
      (.BOOLEAN, .boolean)] : List (Coral.NativeType × Coral.IBoundType)).length = 2 ∧
    Coral.dictGet [(.FUNCTION, .func [] .integer), (.BOOLEAN, .boolean)]
      (Coral.IBoundType.func [] .integer).type = some (.func [] .integer) ∧
    Coral.dictGet [(.FUNCTION, .func [] .integer), (.BOOLEAN, .boolean)]
      (Coral.IBoundType.boolean).type = some .boolean :=
  (c4_union_members_shape (.func [] .integer) .boolean (by decide) (by decide)).1
    [(.FUNCTION, .func [] .integer), (.BOOLEAN, .boolean)] rfl

/-! ### Scopes and bindings (`Scope`, `ScopeVar`, `GlobalVar`) -/

namespace Coral

/-- The class `ScopeVar` of `coral/ast.py`: a named write-once binding carrying its
mutable current type and its dirty flag (`changed`).  `index` is the local
index assigned at declaration.  Vars live in a global var store and are
referred to by their store id, which models Python object identity. -/
structure ScopeVar where
  name : String
  index : Nat
  type : IBoundType
  changed : Bool
deriving Repr

instance : Inhabited ScopeVar := ⟨⟨"", 0, .any, false⟩⟩

/-- The class `GlobalVar`: a capture entry, holding the captured var (by store id) and
the capture index assigned when it was recorded. -/
structure GlobalVar where
  var : Nat
  index : Nat
deriving Repr, DecidableEq

/-- One `Scope`'s own storage: `locals` maps names to var ids, `globals` holds
the captures resolved through the parent.  Both dicts are insertion ordered. -/
structure Frame where
  locals : List (String × Nat)
  globals : List (String × GlobalVar)
deriving Repr

/-- A scope with no declarations, `Scope(parent)`. -/
def emptyFrame : Frame := ⟨[], []⟩

/-- The exceptions raised by the binding phase. -/
inductive ScopeErr where
  | alreadyDefined -- SyntaxError "Identifier '...' has already been defined"
  | notDefined -- ValueError "Identifier '...' is not defined"
deriving DecidableEq, Repr

/-- The method `Scope.declare`: raises when the name is already among this scope's own
locals, returning the state unchanged (the source raises before mutating);
otherwise creates a `ScopeVar` whose `index` is the current number of locals,
appends it to the var store, and binds the name to it in `locals`.  The last
component is the new var's store id (meaningless on error). -/
def declare (f : Frame) (vars : List ScopeVar) (name : String) (type_ : IBoundType) :
    Option ScopeErr × Frame × List ScopeVar × Nat :=
  if name ∈ f.locals.map Prod.fst then
    (some .alreadyDefined, f, vars, 0)
  else
    (none, { f with locals := f.locals ++ [(name, vars.length)] },
      vars ++ [{ name := name, index := f.locals.length, type := type_, changed := false }],
      vars.length)

/-- The method `Scope.get` on a chain of scopes (innermost scope first; the tail of the
list is the parent chain, and the empty chain stands for `parent is None`):
look in `locals`, then in the `globals` capture cache, then recurse into the
parent, recording on the way back a new capture entry whose index is the
number of captures before the insertion.  A raised exception propagates
without mutating any scope (the source records captures only after the
recursive call returns). -/
def scopeGet : List Frame → String → Except ScopeErr (Nat × List Frame)
  | [], _ => .error .notDefined
  | f :: rest, name =>
    match f.locals.lookup name with
    | some vid => .ok (vid, f :: rest)
    | none =>
      match f.globals.lookup name with
      | some g => .ok (g.var, f :: rest)
      | none =>
        match scopeGet rest name with
        | .error e => .error e
        | .ok (vid, rest') =>
          .ok (vid, { f with globals := f.globals ++ [(name, ⟨vid, f.globals.length⟩)] } :: rest')

/-- Auxiliary: a successful lookup means the pair is a member of the dict. -/
theorem lookup_mem {α β : Type} [BEq α] [LawfulBEq α] {l : List (α × β)} {a : α} {b : β}
    (h : l.lookup a = some b) : (a, b) ∈ l := by
  induction l with
  | nil => simp [List.lookup] at h
  | cons e rest ih =>
    rw [List.lookup] at h
    by_cases he : a == e.1
    · simp [he] at h
      have : e.1 = a := (beq_iff_eq.mp (by simpa using he)).symm
      subst this
      cases e
      simp_all
    · simp [he] at h
      exact List.mem_cons_of_mem _ (ih h)

/-- A name is declared somewhere in the chain. -/
def chainDeclares (cs : List Frame) (name : String) : Prop :=
  ∃ f ∈ cs, (f.locals.lookup name).isSome

/-- Reachability invariant of scope chains: every cached capture resolves a
name declared in some scope of the parent chain. -/
def chainInv : List Frame → Prop
  | [] => True
  | f :: rest =>
    (∀ e ∈ f.globals, ∃ g ∈ rest, (g.locals.lookup e.1).isSome) ∧ chainInv rest

end Coral

/-- C8: the method `Scope.declare(name, type)` raises "identifier already defined" iff the
name is already among that scope's own locals; in that case the scope's locals
and the var store are unchanged; on success it adds exactly one new `ScopeVar`
whose `index` equals the number of locals before the call. -/
theorem c8_declare_spec (f : Coral.Frame) (vars : List Coral.ScopeVar)
    (name : String) (ty : Coral.IBoundType) :
    ((Coral.declare f vars name ty).1 = some .alreadyDefined ↔
      name ∈ f.locals.map Prod.fst) ∧
    (name ∈ f.locals.map Prod.fst →
      (Coral.declare f vars name ty).2.1 = f ∧
      (Coral.declare f vars name ty).2.2.1 = vars) ∧
    (name ∉ f.locals.map Prod.fst →
      (Coral.declare f vars name ty).1 = none ∧
      (Coral.declare f vars name ty).2.1.locals = f.locals ++ [(name, vars.length)] ∧
      (Coral.declare f vars name ty).2.2.1 =
        vars ++ [{ name := name, index := f.locals.length, type := ty, changed := false }]) := by
  by_cases h : name ∈ f.locals.map Prod.fst <;>
    simp [Coral.declare, h]

/-- C8 (witness): declaring the name `"y"` in a scope whose only local is `"x"`. -/
theorem c8_declare_spec_witness :
    ("y" ∉ (Coral.Frame.mk [("x", 0)] []).locals.map Prod.fst) ∧
    ((Coral.declare (Coral.Frame.mk [("x", 0)] []) [default] "y" .integer).1 = none ∧
      (Coral.declare (Coral.Frame.mk [("x", 0)] []) [default] "y" .integer).2.1.locals =
        [("x", 0)] ++ [("y", 1)] ∧
      (Coral.declare (Coral.Frame.mk [("x", 0)] []) [default] "y" .integer).2.2.1 =
        [default] ++ [{ name := "y", index := 1, type := .integer, changed := false }]) :=
  ⟨by decide,
   (c8_declare_spec (Coral.Frame.mk [("x", 0)] []) [default] "y" .integer).2.2 (by decide)⟩

/-- C10: behaviour of `Scope.get` on a chain of scopes.  (1) Resolving a name
declared `k ≥ 1` parent levels above, with no capture for it cached anywhere
below the declaring scope, returns the very var (same store id) held by the
declaring scope's locals and records one capture entry for the name in every
scope on the path strictly below the declaring scope, each entry's index being
that scope's number of captures before the insertion (the declaring scope and
everything above it are untouched).  (2) A later get of the same name from the
same scope returns the cached capture and changes nothing.  (3) Under the
reachability invariant on capture caches, get raises an error iff no scope in
the parent chain declares the name. -/
theorem c10_scope_get_spec (name : String) :
    (∀ (pre : List Coral.Frame) (d : Coral.Frame) (rest : List Coral.Frame) (vid : Nat),
      (∀ f ∈ pre, f.locals.lookup name = none ∧ f.globals.lookup name = none) →
      d.locals.lookup name = some vid →
      Coral.scopeGet (pre ++ d :: rest) name =
        .ok (vid, (pre.map (fun f =>
          { f with globals :=
            f.globals ++ [(name, ⟨vid, f.globals.length⟩)] })) ++ d :: rest)) ∧
    (∀ (f : Coral.Frame) (rest : List Coral.Frame) (g : Coral.GlobalVar),
      f.locals.lookup name = none → f.globals.lookup name = some g →
      Coral.scopeGet (f :: rest) name = .ok (g.var, f :: rest)) ∧
    (∀ cs : List Coral.Frame, Coral.chainInv cs →
      ((∃ e, Coral.scopeGet cs name = .error e) ↔ ¬ Coral.chainDeclares cs name)) := by
  refine ⟨?_, ?_, ?_⟩
  · intro pre d rest vid hpre hd
    induction pre with
    | nil => simp [Coral.scopeGet, hd]
    | cons f pre' ih =>
      have hf := hpre f (by simp)
      have hstep := ih (fun g hg => hpre g (by simp [hg]))
      simp [Coral.scopeGet, hf.1, hf.2, hstep]
  · intro f rest g h1 h2
    simp [Coral.scopeGet, h1, h2]
  · intro cs hinv
    induction cs with
    | nil =>
      simp [Coral.scopeGet, Coral.chainDeclares]
    | cons f rest ih =>
      rw [Coral.chainInv] at hinv
      rcases hl : f.locals.lookup name with _ | vid
      · rcases hg : f.globals.lookup name with _ | g
        · have ihh := ih hinv.2
          constructor
          · rintro ⟨e, he⟩ hdecl
            rcases hr : Coral.scopeGet rest name with e' | ⟨vid', rest'⟩
            · obtain ⟨q, hq, hqs⟩ := hdecl
              rcases List.mem_cons.mp hq with rfl | hq'
              · simp [hl] at hqs
              · exact (ihh.mp ⟨e', hr⟩) ⟨q, hq', hqs⟩
            · simp [Coral.scopeGet, hl, hg, hr] at he
          · intro hnd
            have hrest : ¬ Coral.chainDeclares rest name := by
              rintro ⟨q, hq, hqs⟩
              exact hnd ⟨q, by simp [hq], hqs⟩
            obtain ⟨e, he⟩ := ihh.mpr hrest
            exact ⟨e, by simp [Coral.scopeGet, hl, hg, he]⟩
        · constructor
          · rintro ⟨e, he⟩
            simp [Coral.scopeGet, hl, hg] at he
          · intro hnd
            obtain ⟨p, hp, hps⟩ := hinv.1 (name, g) (Coral.lookup_mem hg)
            exact absurd ⟨p, by simp [hp], hps⟩ hnd
      · constructor
        · rintro ⟨e, he⟩
          simp [Coral.scopeGet, hl] at he
        · intro hnd
          exact absurd ⟨f, by simp, by simp [hl]⟩ hnd

/-- C10 (witness): resolving the name `"x"` from a grandchild scope, with `"x"` declared
two levels up as var 7. -/
theorem c10_scope_get_spec_witness :
    Coral.scopeGet [Coral.emptyFrame, Coral.emptyFrame,
        Coral.Frame.mk [("x", 7)] [], Coral.emptyFrame] "x" =
      .ok (7, [Coral.Frame.mk [] [("x", ⟨7, 0⟩)], Coral.Frame.mk [] [("x", ⟨7, 0⟩)],
        Coral.Frame.mk [("x", 7)] [], Coral.emptyFrame]) := by
  have h := (c10_scope_get_spec "x").1 [Coral.emptyFrame, Coral.emptyFrame]
    (Coral.Frame.mk [("x", 7)] []) [Coral.emptyFrame] 7
    (by intro f hf
        simp only [List.mem_cons, List.not_mem_nil, or_false] at hf
        rcases hf with rfl | rfl <;> exact ⟨rfl, rfl⟩)
    (by rfl)
  simpa [Coral.emptyFrame] using h

/-! ### The typed AST and the inference engine -/

namespace Coral

/-- The mutable part of a `ReferenceExpression`: the referenced var (by store
id) and the node's own `boundtype` slot, which `update_type`/`refresh_type`
keep synchronised with the var.  References live in a ref store and are
referred to by id; the binding reference shared between a `LetExpression` and
its `FunctionExpression` is one ref store entry. -/
structure RefSt where
  var : Nat
  boundtype : IBoundType
deriving Repr

instance : Inhabited RefSt := ⟨⟨0, .any⟩⟩

/-- The mutable state threaded through inference: the var store, the ref store
and the `boundtype` slots of all non-reference AST nodes (by node id). -/
structure InferSt where
  vars : List ScopeVar
  refs : List RefSt
  ntypes : List IBoundType
deriving Repr

/-- The method `ScopeVar.may_change`: update the type and set the dirty flag when the new
type differs (Python `!=`) from the current one. -/
def mayChange (st : InferSt) (vid : Nat) (newtype : IBoundType) : InferSt :=
  let v := st.vars.getD vid default
  if pyEq newtype v.type then st
  else { st with vars := st.vars.set vid { v with type := newtype, changed := true } }

/-- The method `ReferenceExpression.update_type`: `var.may_change(v)` then
`boundtype = var.type`. -/
def refUpdateType (st : InferSt) (rid : Nat) (v : IBoundType) : InferSt :=
  let st1 := mayChange st (st.refs.getD rid default).var v
  let r := st1.refs.getD rid default
  { st1 with
    refs := st1.refs.set rid { r with boundtype := (st1.vars.getD r.var default).type } }

/-- The method `ReferenceExpression.refresh_type`: `boundtype = var.type`. -/
def refRefresh (st : InferSt) (rid : Nat) : InferSt :=
  let r := st.refs.getD rid default
  { st with refs := st.refs.set rid { r with boundtype := (st.vars.getD r.var default).type } }

/-- The method `ReferenceExpression.infertype`: embed the supertype constraint into the
var (`update_type(var.type.lower(supertype))`) and return the refreshed
boundtype. -/
def refInfertype (st : InferSt) (rid : Nat) (supertype : IBoundType) :
    IBoundType × InferSt :=
  let varty := (st.vars.getD (st.refs.getD rid default).var default).type
  let st1 := refUpdateType st rid (varty.lower supertype)
  ((st1.refs.getD rid default).boundtype, st1)

mutual

/-- The typed AST of `coral/ast.py`.  Every non-reference node carries the id
of its `boundtype` slot in the node-type store (`nid`), modelling the mutable
`Expression.boundtype` attribute; references carry their ref store id.  The
binary nodes keep only the structure relevant to inference (all four arithmetic
operators infer identically, and likewise for the comparison, boolean and
equality families).  `funcE.params` are the ids of the parameter
`ReferenceExpression`s; `binding` is the optional self/let binding reference. -/
inductive Expr where
  | litBool (nid : Nat) (value : Bool)
  | litInt (nid : Nat) (value : Int)
  | litStr (nid : Nat) (value : String)
  | refE (rid : Nat)
  | typecheckE (nid : Nat) (value : Expr)
  | concat (nid : Nat) (left right : Expr)
  | arith (nid : Nat) (left right : Expr)
  | ncmp (nid : Nat) (left right : Expr)
  | boolOp (nid : Nat) (left right : Expr)
  | equals (nid : Nat) (left right : Expr)
  | printE (nid : Nat) (value : Expr)
  | tupleE (nid : Nat) (first second : Expr)
  | firstE (nid : Nat) (value : Expr)
  | secondE (nid : Nat) (value : Expr)
  | condE (nid : Nat) (cond then_ alt : Expr)
  | callE (nid : Nat) (callee : Expr) (args : ExprList)
  | funcE (nid : Nat) (params : List Nat) (body : Expr) (binding : Option Nat)
  | letE (nid : Nat) (binding : Option Nat) (value next : Expr)

/-- Argument lists of `callE` (a mutual list type so that the recursion over
the tree stays structural). -/
inductive ExprList where
  | nil
  | cons (head : Expr) (tail : ExprList)

end

/-- Read a node's current `boundtype` (for references, from the ref store). -/
def exprBoundtype (e : Expr) (st : InferSt) : IBoundType :=
  match e with
  | .refE rid => (st.refs.getD rid default).boundtype
  | .litBool nid _ | .litInt nid _ | .litStr nid _ | .typecheckE nid _
  | .concat nid _ _ | .arith nid _ _ | .ncmp nid _ _ | .boolOp nid _ _
  | .equals nid _ _ | .printE nid _ | .tupleE nid _ _ | .firstE nid _
  | .secondE nid _ | .condE nid _ _ _ | .callE nid _ _ | .funcE nid _ _ _
  | .letE nid _ _ _ => st.ntypes.getD nid .any

/-- Write a node's `boundtype` slot. -/
def setNodeType (st : InferSt) (nid : Nat) (t : IBoundType) : InferSt :=
  { st with ntypes := st.ntypes.set nid t }

/-- A handler standing for `parent.handle_partial_inference` as seen from a
node: what runs when a conditional child reports its `then` type. -/
abbrev Handler := IBoundType → InferSt → InferSt

/-- The handler of a node with no parent, and of every node whose
`handle_partial_inference` is the default no-op. -/
def noopHandler : Handler := fun _ st => st

/-- Field `params` of a `BoundFunctionType` (the source casts before reading). -/
def funcParamsOf : IBoundType → List IBoundType
  | .func ps _ => ps
  | _ => []

/-- Field `return_type` of a `BoundFunctionType` (the source casts before reading). -/
def funcReturnOf : IBoundType → IBoundType
  | .func _ r => r
  | _ => .undefined

/-- The parameter loop of `FunctionExpression.infertype`:
`param.infertype(param_types[i])` for each parameter reference (the two lists
have equal length for every reachable signature, since `lower` preserves
function arity). -/
def inferParams (st : InferSt) (params : List Nat) (ptys : List IBoundType) : InferSt :=
  (params.zip ptys).foldl (fun st' p => (refInfertype st' p.1 p.2).2) st

/-- Python `tuple(param.boundtype for param in self.params)`. -/
def paramTypes (st : InferSt) (params : List Nat) : List IBoundType :=
  params.map (fun rid => (st.refs.getD rid default).boundtype)

/-- The handler contributed by a `FunctionExpression` to its body:
`handle_partial_inference` tightens the binding reference (and hence the
self-referenced var) when the partial type lowers the current return type.
`oldty` is the node's `boundtype` when body inference starts, which is what
the source reads, since the node is updated only after the body returns. -/
def funcHandler (binding : Option Nat) (oldty : IBoundType) : Handler :=
  fun ty st =>
    match binding with
    | none => st
    | some rid =>
      if ty.lowers_any (funcReturnOf oldty) then
        (refInfertype st rid (.func (funcParamsOf oldty) ty)).2
      else st

mutual

/-- The method `Expression.infertype` of `coral/ast.py`, one case per node class, with the
handler argument standing for the node's parent's `handle_partial_inference`
(nodes whose children's partial results are ignored pass `noopHandler`; `Let`
and `Conditional` forward their own handler; a `Let`'s `next` gets
`noopHandler` because the source builds `next` with the let's own build-time
parent, which is always `None`).  Returns the inferred type and the updated
state. -/
def infertype : Expr → IBoundType → Handler → InferSt → IBoundType × InferSt
  | .litBool _ _, s, _, st => (s.lower BOUND_BOOLEAN_TYPE, st)
  | .litInt _ _, s, _, st => (s.lower BOUND_INTEGER_TYPE, st)
  | .litStr _ _, s, _, st => (s.lower BOUND_STRING_TYPE, st)
  | .refE rid, s, _, st => refInfertype st rid s
  | .typecheckE nid _, s, _, st => (s.lower (st.ntypes.getD nid .any), st)
  | .concat nid l r, s, _, st =>
    let (lt, st1) := infertype l BINOP_ADD_TYPES noopHandler st
    let (rt, st2) := infertype r BINOP_ADD_TYPES noopHandler st1
    let bt :=
      if lt.type = .INTEGER ∧ rt.type = .INTEGER then BOUND_INTEGER_TYPE
      else if lt.type = .STRING ∨ rt.type = .STRING then BOUND_STRING_TYPE
      else BINOP_ADD_TYPES
    (s.lower bt, setNodeType st2 nid bt)
  | .arith nid l r, s, _, st =>
    let (_, st1) := infertype l BOUND_INTEGER_TYPE noopHandler st
    let (_, st2) := infertype r BOUND_INTEGER_TYPE noopHandler st1
    (s.lower BOUND_INTEGER_TYPE, setNodeType st2 nid BOUND_INTEGER_TYPE)
  | .ncmp nid l r, s, _, st =>
    let (_, st1) := infertype l BOUND_INTEGER_TYPE noopHandler st
    let (_, st2) := infertype r BOUND_INTEGER_TYPE noopHandler st1
    (s.lower BOUND_BOOLEAN_TYPE, setNodeType st2 nid BOUND_BOOLEAN_TYPE)
  | .boolOp nid l r, s, _, st =>
    let (_, st1) := infertype l BOUND_BOOLEAN_TYPE noopHandler st
    let (_, st2) := infertype r BOUND_BOOLEAN_TYPE noopHandler st1
    (s.lower BOUND_BOOLEAN_TYPE, setNodeType st2 nid BOUND_BOOLEAN_TYPE)
  | .equals nid l r, s, _, st =>
    let (lt, st1) := infertype l BINOP_EQUAL_TYPES noopHandler st
    let st2 :=
      if lt.type = .BOOLEAN then (infertype r BOUND_BOOLEAN_TYPE noopHandler st1).2
      else if lt.type = .INTEGER then (infertype r BOUND_INTEGER_TYPE noopHandler st1).2
      else if lt.type = .STRING then (infertype r BOUND_STRING_TYPE noopHandler st1).2
      else
        let (rt, st2') := infertype r BINOP_EQUAL_TYPES noopHandler st1
        if rt.type = .BOOLEAN then (infertype l BOUND_BOOLEAN_TYPE noopHandler st2').2
        else if rt.type = .INTEGER then (infertype l BOUND_INTEGER_TYPE noopHandler st2').2
        else if rt.type = .STRING then (infertype l BOUND_STRING_TYPE noopHandler st2').2
        else st2'
    (s.lower BOUND_BOOLEAN_TYPE, setNodeType st2 nid BOUND_BOOLEAN_TYPE)
  | .printE _ v, s, _, st => infertype v s noopHandler st
  | .tupleE nid a b, s, _, st =>
    match s.lower BOUND_TUPLE_TYPE with
    | .tuple g1 g2 =>
      let (t1, st1) := infertype a g1 noopHandler st
      let (t2, st2) := infertype b g2 noopHandler st1
      (.tuple t1 t2, setNodeType st2 nid (.tuple t1 t2))
    | _ => (BOUND_UNDEFINED_TYPE, setNodeType st nid BOUND_TUPLE_TYPE)
  | .firstE nid v, s, _, st =>
    let (sig, st1) := infertype v (.tuple s .any) noopHandler st
    match sig with
    | .tuple g1 _ => (g1, setNodeType st1 nid g1)
    | _ => (BOUND_UNDEFINED_TYPE, setNodeType st1 nid BOUND_UNDEFINED_TYPE)
  | .secondE nid v, s, _, st =>
    let (sig, st1) := infertype v (.tuple .any s) noopHandler st
    match sig with
    | .tuple _ g2 => (g2, setNodeType st1 nid g2)
    | _ => (BOUND_UNDEFINED_TYPE, setNodeType st1 nid BOUND_UNDEFINED_TYPE)
  | .condE nid c th al, s, h, st =>
    let (_, st1) := infertype c BOUND_BOOLEAN_TYPE h st
    let (tt, st2) := infertype th s h st1
    let st3 := h tt st2
    let (at_, st4) := infertype al s h st3
    (tt.lower at_, setNodeType st4 nid (tt.lower at_))
  | .callE nid callee args, s, _, st =>
    let (argTys, st1) :=
      match exprBoundtype callee st with
      | .func cps _ => inferArgsTry args cps st
      | _ => inferArgsAny args st
    let (sig, st2) := infertype callee (.func argTys s) noopHandler st1
    match sig with
    | .func _ rt => (rt, setNodeType st2 nid rt)
    | other => (other, setNodeType st2 nid other)
  | .funcE nid params body binding, s, _, st =>
    let oldty := st.ntypes.getD nid .any
    match s.lower oldty with
    | .func lps lr =>
      let st1 := inferParams st params lps
      let (rt, st2) := infertype body lr (funcHandler binding oldty) st1
      let newty := IBoundType.func (paramTypes st2 params)
        (if rt.lowers_any lr then rt else lr)
      (newty, setNodeType st2 nid newty)
    | other => (other, st)
  | .letE nid binding value next, s, h, st =>
    let st1 :=
      match binding with
      | some rid =>
        let st0 := refRefresh st rid
        let (vt, stv) := infertype value ((st0.refs.getD rid default).boundtype) h st0
        (refInfertype stv rid vt).2
      | none => (infertype value BOUND_ANY_TYPE h st).2
    let (nt, st2) := infertype next s noopHandler st1
    (nt, setNodeType st2 nid nt)

/-- The argument loop of `CallExpression.infertype` when the callee's current
type is a function type: each argument is `try_infertype`d against the
corresponding current parameter type (the body of `Expression.try_infertype`
is inlined here, its only call site; the source indexes `params[i]` and
relies on matching arity). -/
def inferArgsTry : ExprList → List IBoundType → InferSt → List IBoundType × InferSt
  | .nil, _, st => ([], st)
  | .cons e rest, cps, st =>
    let pty := cps.headD BOUND_ANY_TYPE
    let lowered := pty.lower (exprBoundtype e st)
    let (t, st1) :=
      if lowered.type ≠ .ANY ∧ lowered.type ≠ .UNDEFINED ∧
          (∀ g ∈ lowered.generics, g.type ≠ .ANY ∧ g.type ≠ .UNDEFINED) then
        infertype e pty noopHandler st
      else (exprBoundtype e st, st)
    let (ts, st2) := inferArgsTry rest cps.tail st1
    (t :: ts, st2)

/-- The argument loop of `CallExpression.infertype` when the callee's current
type is not a function type: each argument is inferred against `Any`. -/
def inferArgsAny : ExprList → InferSt → List IBoundType × InferSt
  | .nil, st => ([], st)
  | .cons e rest, st =>
    let (t, st1) := infertype e BOUND_ANY_TYPE noopHandler st
    let (ts, st2) := inferArgsAny rest st1
    (t :: ts, st2)

end

end Coral

namespace Coral

/-- One pass of the dirty-flag check in `typecheck`:
`for var in allvars: if var.changed: varschanged = True; var.changed = False`.
Returns whether any var was dirty, and the store with every flag cleared. -/
def clearVars : List ScopeVar → Bool × List ScopeVar
  | [] => (false, [])
  | v :: vs =>
    (v.changed || (clearVars vs).1, { v with changed := false } :: (clearVars vs).2)

/-- The inference fixed point of `typecheck` in `coral/ast.py`: repeatedly
`infertype(ANY)` the root, clear the dirty flags, and stop on the first round
in which no var changed.  `fuel` bounds the number of rounds (the source loops
unboundedly); `none` means the fuel ran out before the fixed point. -/
def inferRounds : Nat → Expr → InferSt → Option InferSt
  | 0, _, _ => none
  | n + 1, e, st =>
    let st1 := (infertype e BOUND_ANY_TYPE noopHandler st).2
    let st2 := { st1 with vars := (clearVars st1.vars).2 }
    if (clearVars st1.vars).1 then inferRounds n e st2 else some st2

/-- The enum `BinaryOperator` of `coral/ast.py` (wire names as in the JSON AST). -/
inductive BinaryOperator where
  | ADD | SUB | MUL | DIV | MOD
  | EQ | NEQ
  | LT | LTE | GT | GTE
  | AND | OR
deriving DecidableEq, Repr

mutual

/-- The syntactic AST (`SyntaxTerm` of `coral/ast.py`), without the source
locations, which only feed diagnostic strings. -/
inductive Term where
  | int (value : Int)
  | str (value : String)
  | bool (value : Bool)
  | var (text : String)
  | tup (first second : Term)
  | letT (name : String) (value next : Term)
  | printT (value : Term)
  | firstT (value : Term)
  | secondT (value : Term)
  | binary (op : BinaryOperator) (lhs rhs : Term)
  | callT (callee : Term) (arguments : TermList)
  | ifT (condition then_ otherwise : Term)
  | funcT (parameters : List String) (value : Term)

/-- Argument lists of `callT`. -/
inductive TermList where
  | nil
  | cons (head : Term) (tail : TermList)

end

/-- Python `term['value']['kind'] == 'Function'` in the Let handling. -/
def isFuncTerm : Term → Bool
  | .funcT _ _ => true
  | _ => false

/-- Build-time state: the inference state under construction plus the
`allvars` list collected for the fixed-point loop. -/
structure BuildSt where
  st : InferSt
  allvars : List Nat
deriving Repr

/-- Allocate a fresh node-type slot holding `ty`. -/
def newNode (bst : BuildSt) (ty : IBoundType) : Nat × BuildSt :=
  (bst.st.ntypes.length,
    { bst with st := { bst.st with ntypes := bst.st.ntypes ++ [ty] } })

/-- Create a `ReferenceExpression` for var `vid` (its `boundtype` starts as the
var's current type, `type_=var.type`). -/
def newRef (bst : BuildSt) (vid : Nat) : Nat × BuildSt :=
  (bst.st.refs.length,
    { bst with st := { bst.st with
      refs := bst.st.refs ++ [⟨vid, (bst.st.vars.getD vid default).type⟩] } })

/-- Take apart a nonempty chain (the chains threaded through `build` are never
empty; the fallback pair is never used). -/
def popFrame : List Frame → Frame × List Frame
  | [] => (emptyFrame, [])
  | f :: ps => (f, ps)

/-- The parameter declarations of a `FunctionExpression`:
`funcscope.declare(param, BOUND_ANY_TYPE)` in order, failing on duplicates. -/
def declareParams (f : Frame) (vars : List ScopeVar) :
    List String → Except ScopeErr (Frame × List ScopeVar × List Nat)
  | [] => .ok (f, vars, [])
  | p :: rest =>
    match declare f vars p BOUND_ANY_TYPE with
    | (some e, _, _, _) => .error e
    | (none, f', vars', vid) =>
      match declareParams f' vars' rest with
      | .error e => .error e
      | .ok (f'', vars'', vids) => .ok (f'', vars'', vid :: vids)

mutual

/-- The function `build_typed_ast` of `coral/ast.py`: turn the syntactic AST into a typed
AST, materialising scopes (the current scope `f` plus the parent chain `ps`),
resolving identifiers and allocating the node/ref/var stores.  `bnd` is the
`binding=...` child argument passed to a function value by the Let handling.
Conditional branches are built in fresh child scopes; a function body is built
in a fresh scope whose parent is the current one.  Errors are the
SyntaxError/ValueError raised by `declare`/`get`. -/
def build (t : Term) (f : Frame) (ps : List Frame) (bnd : Option Nat) (bst : BuildSt) :
    Except ScopeErr (Expr × Frame × List Frame × BuildSt) :=
  match t with
  | .int v =>
    let (nid, bst1) := newNode bst BOUND_INTEGER_TYPE
    .ok (.litInt nid v, f, ps, bst1)
  | .str v =>
    let (nid, bst1) := newNode bst BOUND_STRING_TYPE
    .ok (.litStr nid v, f, ps, bst1)
  | .bool v =>
    let (nid, bst1) := newNode bst BOUND_BOOLEAN_TYPE
    .ok (.litBool nid v, f, ps, bst1)
  | .var name =>
    match scopeGet (f :: ps) name with
    | .error e => .error e
    | .ok (vid, chain') =>
      let (f', ps') := popFrame chain'
      let (rid, bst1) := newRef bst vid
      .ok (.refE rid, f', ps', bst1)
  | .tup a b =>
    match build a f ps none bst with
    | .error e => .error e
    | .ok (ea, f1, ps1, bst1) =>
      match build b f1 ps1 none bst1 with
      | .error e => .error e
      | .ok (eb, f2, ps2, bst2) =>
        let (nid, bst3) := newNode bst2
          (.tuple (exprBoundtype ea bst2.st) (exprBoundtype eb bst2.st))
        .ok (.tupleE nid ea eb, f2, ps2, bst3)
  | .printT v =>
    match build v f ps none bst with
    | .error e => .error e
    | .ok (ev, f1, ps1, bst1) =>
      let (nid, bst2) := newNode bst1 BOUND_ANY_TYPE
      .ok (.printE nid ev, f1, ps1, bst2)
  | .firstT v =>
    match build v f ps none bst with
    | .error e => .error e
    | .ok (ev, f1, ps1, bst1) =>
      let (nid, bst2) := newNode bst1 BOUND_ANY_TYPE
      .ok (.firstE nid ev, f1, ps1, bst2)
  | .secondT v =>
    match build v f ps none bst with
    | .error e => .error e
    | .ok (ev, f1, ps1, bst1) =>
      let (nid, bst2) := newNode bst1 BOUND_ANY_TYPE
      .ok (.secondE nid ev, f1, ps1, bst2)
  | .binary op lhs rhs =>
    match build lhs f ps none bst with
    | .error e => .error e
    | .ok (el, f1, ps1, bst1) =>
      match build rhs f1 ps1 none bst1 with
      | .error e => .error e
      | .ok (er, f2, ps2, bst2) =>
        let (nid, bst3) := newNode bst2 BOUND_ANY_TYPE
        let node :=
          match op with
          | .ADD => Expr.concat nid el er
          | .SUB | .MUL | .DIV | .MOD => Expr.arith nid el er
          | .LT | .LTE | .GT | .GTE => Expr.ncmp nid el er
          | .AND | .OR => Expr.boolOp nid el er
          | .EQ | .NEQ => Expr.equals nid el er
        .ok (node, f2, ps2, bst3)
  | .callT callee args =>
    match build callee f ps none bst with
    | .error e => .error e
    | .ok (ec, f1, ps1, bst1) =>
      match buildArgs args f1 ps1 bst1 with
      | .error e => .error e
      | .ok (eas, f2, ps2, bst2) =>
        let (nid, bst3) := newNode bst2 BOUND_ANY_TYPE
        .ok (.callE nid ec eas, f2, ps2, bst3)
  | .ifT c th al =>
    match build c f ps none bst with
    | .error e => .error e
    | .ok (ec, f1, ps1, bst1) =>
      -- branches create new variable scopes
      match build th emptyFrame (f1 :: ps1) none bst1 with
      | .error e => .error e
      | .ok (eth, _, chain2, bst2) =>
        let (f2, ps2) := popFrame chain2
        match build al emptyFrame (f2 :: ps2) none bst2 with
        | .error e => .error e
        | .ok (eal, _, chain3, bst3) =>
          let (f3, ps3) := popFrame chain3
          let (nid, bst4) := newNode bst3 BOUND_ANY_TYPE
          .ok (.condE nid ec eth eal, f3, ps3, bst4)
  | .funcT parameters value =>
    match declareParams emptyFrame bst.st.vars parameters with
    | .error e => .error e
    | .ok (pf, vars', pvids) =>
      let bst1 : BuildSt := { bst with st := { bst.st with vars := vars' } }
      match build value pf (f :: ps) none bst1 with
      | .error e => .error e
      | .ok (ebody, _, chain2, bst2) =>
        let (f2, ps2) := popFrame chain2
        let (nid, bst3) := newNode bst2
          (.func (pvids.map (fun vid => (bst2.st.vars.getD vid default).type))
            BOUND_ANY_TYPE)
        -- the parameter ReferenceExpressions of the FunctionExpression
        let (prids, bst4) := pvids.foldr
          (fun vid acc =>
            let (rids, bstAcc) := acc
            let (rid, bst') := newRef bstAcc vid
            (rid :: rids, bst'))
          ([], bst3)
        let bst5 : BuildSt := { bst4 with allvars := bst4.allvars ++ pvids }
        .ok (.funcE nid prids ebody bnd, f2, ps2, bst5)
  | .letT name value next =>
    if name ≠ "_" ∧ isFuncTerm value then
      -- declare the name before building the function so it can capture itself
      match declare f bst.st.vars name BOUND_ANY_TYPE with
      | (some e, _, _, _) => .error e
      | (none, f1, vars1, vid) =>
        let bst1 : BuildSt := { bst with st := { bst.st with vars := vars1 } }
        let (rid, bst2) := newRef bst1 vid
        match build value f1 ps (some rid) bst2 with
        | .error e => .error e
        | .ok (ev, f2, ps2, bst3) =>
          -- binding.update_type(value5.boundtype)
          let bst4 : BuildSt :=
            { bst3 with st := refUpdateType bst3.st rid (exprBoundtype ev bst3.st) }
          let bst5 : BuildSt := { bst4 with allvars := bst4.allvars ++ [vid] }
          match build next f2 ps2 none bst5 with
          | .error e => .error e
          | .ok (en, f3, ps3, bst6) =>
            let (nid, bst7) := newNode bst6 BOUND_ANY_TYPE
            .ok (.letE nid (some rid) ev en, f3, ps3, bst7)
    else
      match build value f ps none bst with
      | .error e => .error e
      | .ok (ev, f1, ps1, bst1) =>
        if name ≠ "_" then
          match declare f1 bst1.st.vars name (exprBoundtype ev bst1.st) with
          | (some e, _, _, _) => .error e
          | (none, f2, vars2, vid) =>
            let bst2 : BuildSt := { bst1 with st := { bst1.st with vars := vars2 } }
            let (rid, bst3) := newRef bst2 vid
            let bst4 : BuildSt := { bst3 with allvars := bst3.allvars ++ [vid] }
            match build next f2 ps1 none bst4 with
            | .error e => .error e
            | .ok (en, f3, ps3, bst5) =>
              let (nid, bst6) := newNode bst5 BOUND_ANY_TYPE
              .ok (.letE nid (some rid) ev en, f3, ps3, bst6)
        else
          match build next f1 ps1 none bst1 with
          | .error e => .error e
          | .ok (en, f3, ps3, bst5) =>
            let (nid, bst6) := newNode bst5 BOUND_ANY_TYPE
            .ok (.letE nid none ev en, f3, ps3, bst6)

/-- Build the arguments of a call, left to right. -/
def buildArgs (ts : TermList) (f : Frame) (ps : List Frame) (bst : BuildSt) :
    Except ScopeErr (ExprList × Frame × List Frame × BuildSt) :=
  match ts with
  | .nil => .ok (.nil, f, ps, bst)
  | .cons t rest =>
    match build t f ps none bst with
    | .error e => .error e
    | .ok (e1, f1, ps1, bst1) =>
      match buildArgs rest f1 ps1 bst1 with
      | .error e => .error e
      | .ok (es, f2, ps2, bst2) => .ok (.cons e1 es, f2, ps2, bst2)

end

/-- The binding plus inference-fixed-point part of `typecheck` in
`coral/ast.py`: build the typed AST in a fresh global scope, then run
`infertype(ANY)` rounds until no `ScopeVar` changes (`fuel` bounds the number
of rounds).  The trailing validation pass (`ast.typecheck()`) is not modelled:
it inserts `TypeCheckExpression`s and raises static type errors but never
changes a var's type. -/
def runTypecheck (fuel : Nat) (t : Term) : Except ScopeErr (Option InferSt) :=
  match build t emptyFrame [] none ⟨⟨[], [], []⟩, []⟩ with
  | .error e => .error e
  | .ok (e, _, _, bst) => .ok (inferRounds fuel e bst.st)

end Coral

/-! ### Claims C5–C7: the inference fixed point -/

namespace Coral

/-- After a clearing pass every dirty flag is false. -/
theorem clearVars_all_false : ∀ (vs : List ScopeVar), ∀ v ∈ (clearVars vs).2,
    v.changed = false := by
  intro vs
  induction vs with
  | nil => intro v hv; simp [clearVars] at hv
  | cons w rest ih =>
    intro v hv
    simp only [clearVars] at hv
    rcases List.mem_cons.mp hv with rfl | hv'
    · rfl
    · exact ih v hv'

/-- When the fixed-point loop stops, every var's dirty flag is false (each
round's check clears every flag, and the loop returns right after a clearing
pass). -/
theorem inferRounds_clears_dirty (n : Nat) (e : Expr) :
    ∀ (st st' : InferSt), inferRounds n e st = some st' →
      ∀ v ∈ st'.vars, v.changed = false := by
  induction n with
  | zero => intro st st' h; simp [inferRounds] at h
  | succ m ih =>
    intro st st' h
    rw [inferRounds] at h
    split at h
    · exact ih _ _ h
    · cases h
      exact clearVars_all_false _

/-- The typed AST of `let x = if (true) (1, 2) else (3, "foo");
print(first(x))` (the spec's calibration scenario 6). -/
def c6Program : Term :=
  .letT "x" (.ifT (.bool true) (.tup (.int 1) (.int 2)) (.tup (.int 3) (.str "foo")))
    (.printT (.firstT (.var "x")))

/-- A program on which a reference keeps a stale type: `let y = 1;
let f = fn () => y; let _ = f + 1; let _ = y && true; 0`.  The concatenation
lowers `f`'s var to `Undefined`, after which `f`'s body is never revisited, so
the reference to `y` inside it keeps the type `Integer` even though the
boolean operator later lowers `y`'s var to `Undefined`. -/
def c5Program : Term :=
  .letT "y" (.int 1)
    (.letT "f" (.funcT [] (.var "y"))
      (.letT "_" (.binary .ADD (.var "f") (.int 1))
        (.letT "_" (.binary .AND (.var "y") (.bool true))
          (.int 0))))

end Coral

/-- C5 (counterexample): after the inference fixed point of `c5Program`,
reference 2 — the `y` inside `f`'s body — still has boundtype `Integer` while
its ScopeVar `y` has type `Undefined`, refuting "every ReferenceExpression
whose var is v has its current type equal to v's current type". -/
theorem c5_stale_reference_counterexample :
    (match Coral.runTypecheck 8 Coral.c5Program with
     | .ok (some st) =>
       some ((st.refs.getD 2 default).boundtype,
         (st.vars.getD (st.refs.getD 2 default).var default).type)
     | _ => none) = some (.integer, .undefined) ∧
    Coral.IBoundType.integer ≠ Coral.IBoundType.undefined :=
  ⟨rfl, fun h => nomatch h⟩

/-- C5 (amended): after the inference fixed point terminates, every ScopeVar's
dirty flag is false; the second half of the claim — that every reference's
boundtype equals its var's type — does not hold (references inside a function
body that is skipped because the function's type lowered to a non-Function
stay stale; see the counterexample). -/
theorem c5_fixed_point_clears_dirty_flags (fuel : Nat) (t : Coral.Term)
    (st : Coral.InferSt) (h : Coral.runTypecheck fuel t = .ok (some st)) :
    ∀ v ∈ st.vars, v.changed = false := by
  unfold Coral.runTypecheck at h
  rcases hb : Coral.build t Coral.emptyFrame [] none ⟨⟨[], [], []⟩, []⟩ with e' | ⟨e, _, _, bst⟩
  · rw [hb] at h; cases h
  · rw [hb] at h
    simp only [Except.ok.injEq] at h
    cases hr : Coral.inferRounds fuel e bst.st with
    | none => rw [hr] at h; cases h
    | some st2 =>
      rw [hr] at h
      cases h
      exact Coral.inferRounds_clears_dirty fuel e _ _ hr

/-- C5 (witness for the amended theorem, at the program `let x = 1; x`): the
one ScopeVar of the final state has its dirty flag cleared. -/
theorem c5_fixed_point_clears_dirty_flags_witness :
    ({ name := "x", index := 0, type := .integer, changed := false } : Coral.ScopeVar).changed
      = false :=
  c5_fixed_point_clears_dirty_flags 2 (.letT "x" (.int 1) (.var "x"))
    ⟨[⟨"x", 0, .integer, false⟩], [⟨0, .integer⟩, ⟨0, .integer⟩], [.integer, .integer]⟩
    rfl ⟨"x", 0, .integer, false⟩ (List.mem_singleton.mpr rfl)

/-- C6: for the program `let x = if (true) (1, 2) else (3, "foo"); print(first(x))`, the
inference fixed point is reached and the binding `x` (var 0) has type
`Tuple<Integer, Undefined>`. -/
theorem c6_conditional_tuple_type :
    (match Coral.runTypecheck 4 Coral.c6Program with
     | .ok (some st) => some ((st.vars.getD 0 default).name, (st.vars.getD 0 default).type)
     | _ => none) = some ("x", .tuple .integer .undefined) :=
  rfl

/-- C7: the method `ConcatenateExpression.infertype` infers both operands against
`Integer|String`; the node's type becomes `Integer` when both operand results
have Integer kind, else `String` when either has String kind, else
`Integer|String`; it returns `lower(supertype, node type)` and stores the node
type (the supertype and the node's own partial-inference handler play no other
role). -/
theorem c7_concatenate_infertype (nid : Nat) (l r : Coral.Expr)
    (s : Coral.IBoundType) (h : Coral.Handler) (st st1 st2 : Coral.InferSt)
    (lt rt : Coral.IBoundType)
    (hl : Coral.infertype l Coral.BINOP_ADD_TYPES Coral.noopHandler st = (lt, st1))
    (hr : Coral.infertype r Coral.BINOP_ADD_TYPES Coral.noopHandler st1 = (rt, st2)) :
    Coral.infertype (.concat nid l r) s h st =
      (s.lower
        (if lt.type = .INTEGER ∧ rt.type = .INTEGER then Coral.BOUND_INTEGER_TYPE
         else if lt.type = .STRING ∨ rt.type = .STRING then Coral.BOUND_STRING_TYPE
         else Coral.BINOP_ADD_TYPES),
       Coral.setNodeType st2 nid
        (if lt.type = .INTEGER ∧ rt.type = .INTEGER then Coral.BOUND_INTEGER_TYPE
         else if lt.type = .STRING ∨ rt.type = .STRING then Coral.BOUND_STRING_TYPE
         else Coral.BINOP_ADD_TYPES)) := by
  simp [Coral.infertype, hl, hr]

/-- C7 (witness): the term `5 + "a"` under supertype `Any` infers to `String`. -/
theorem c7_concatenate_infertype_witness :
    Coral.infertype (.concat 0 (.litInt 1 5) (.litStr 2 "a"))
        Coral.BOUND_ANY_TYPE Coral.noopHandler ⟨[], [], [.any, .integer, .string]⟩ =
      (.string, ⟨[], [], [.string, .integer, .string]⟩) := by
  rw [c7_concatenate_infertype 0 (.litInt 1 5) (.litStr 2 "a") Coral.BOUND_ANY_TYPE
    Coral.noopHandler ⟨[], [], [.any, .integer, .string]⟩ ⟨[], [], [.any, .integer, .string]⟩
    ⟨[], [], [.any, .integer, .string]⟩ .integer .string rfl rfl]
  rfl

/-! ### Claim C9: tagged-pointer boxing (`coral/compiler.py`, `CoralInteger`) -/

namespace Coral

/-- Two's-complement reading of a 64-bit machine word (`LL_INT =
ir.IntType(64)`). -/
def toSigned (w : Nat) : Int :=
  if w < 2 ^ 63 then (w : Int) else (w : Int) - 2 ^ 64

/-- The method `CoralInteger.box` for an INTEGER-typed value: `shl` by 2 then `or` with
the tag `01` (`builder.shl(value, 2)`, `builder.or_(·, 1)`), the i64 word
wrapping mod 2^64. -/
def coralIntegerBox (x : Int) : Nat :=
  (((x % 2 ^ 64).toNat <<< 2) ||| 1) % 2 ^ 64

/-- The method `CoralInteger.box` for a BOOLEAN-typed value: `zext` to i64, `shl` by 2,
`or` with the tag `10` (`builder.or_(·, 2)`). -/
def coralBooleanBox (b : Bool) : Nat :=
  ((((if b then 1 else 0) : Nat) <<< 2) ||| 2) % 2 ^ 64

/-- The method `CoralInteger.unbox` for INTEGER: `ptrtoint` then `ashr` by 2.  An
arithmetic right shift by 2 is floor division of the signed value by 4, which
is `Int` division (`Int./` is Euclidean division, and the divisor 4 is
positive). -/
def coralIntegerUnbox (w : Nat) : Int :=
  toSigned w / 4

/-- Auxiliary for C9: or-ing the tag bit into a word with clear low bits is
addition. -/
theorem four_mul_or_one (t : Nat) : 4 * t ||| 1 = 4 * t + 1 := by
  apply Nat.eq_of_testBit_eq
  intro i
  cases i with
  | zero =>
    rw [Nat.testBit_lor, Nat.testBit_zero, Nat.testBit_zero]
    have h4 : 4 * t % 2 = 0 := by omega
    have h5 : (4 * t + 1) % 2 = 1 := by omega
    simp [h4, h5]
  | succ j =>
    rw [Nat.testBit_lor, Nat.testBit_succ, Nat.testBit_succ, Nat.testBit_succ]
    have h1 : 4 * t / 2 = 2 * t := by omega
    have h2 : (4 * t + 1) / 2 = 2 * t := by omega
    have h3 : (1 : Nat) / 2 = 0 := by omega
    simp [h1, h2, h3]

/-- Auxiliary for C9: the boxed word in arithmetic form. -/
theorem coralIntegerBox_eq (x : Int) :
    coralIntegerBox x = (4 * (x % 2 ^ 64).toNat + 1) % 2 ^ 64 := by
  unfold coralIntegerBox
  have hsh : ((x % 2 ^ 64).toNat) <<< 2 = 4 * (x % 2 ^ 64).toNat := by
    rw [Nat.shiftLeft_eq]; ring
  rw [hsh, four_mul_or_one]

end Coral

/-- C9: for every 62-bit signed integer `x` (that is, `-2^61 ≤ x < 2^61`),
`unbox(box(x)) = x`; for every 64-bit word `w` with low tag bits `01`
(`w % 4 = 1`), `box(unbox(w)) = w`; and the Boolean box produces low tag bits
`10`. -/
theorem c9_tagged_integer_roundtrip (x : Int) (w : Nat)
    (hx1 : -(2 ^ 61) ≤ x) (hx2 : x < 2 ^ 61) (hw1 : w < 2 ^ 64) (hw2 : w % 4 = 1) :
    Coral.coralIntegerUnbox (Coral.coralIntegerBox x) = x ∧
    Coral.coralIntegerBox (Coral.coralIntegerUnbox w) = w ∧
    Coral.coralBooleanBox true % 4 = 2 ∧ Coral.coralBooleanBox false % 4 = 2 := by
  refine ⟨?_, ?_, by decide, by decide⟩
  · rw [Coral.coralIntegerBox_eq]
    unfold Coral.coralIntegerUnbox Coral.toSigned
    split <;> omega
  · rw [Coral.coralIntegerBox_eq]
    unfold Coral.coralIntegerUnbox Coral.toSigned
    split <;> omega

/-- C9 (witness, at `x = -5`, `w = 21`). -/
theorem c9_tagged_integer_roundtrip_witness :
    Coral.coralIntegerUnbox (Coral.coralIntegerBox (-5)) = -5 ∧
    Coral.coralIntegerBox (Coral.coralIntegerUnbox 21) = 21 ∧
    Coral.coralBooleanBox true % 4 = 2 ∧ Coral.coralBooleanBox false % 4 = 2 :=
  c9_tagged_integer_roundtrip (-5) 21 (by norm_num) (by norm_num) (by norm_num) (by norm_num)
